import Mathlib

/-!
Verification development for the drpc call-dispatch core: the server-side
method registry dispatcher (`Mux.HandleRPC`), the server interceptor-chain
composer (`chainUnaryInterceptors`, `chainStreamInterceptors`), and the
client call wrapper (`ClientConn.Invoke` / `ClientConn.NewStream` with
`chainUnaryClientInterceptors` / `chainStreamClientInterceptors`).

The embedding is effect-explicit: every operation that touches a stream,
invokes a receiver, or runs an interceptor layer returns its result paired
with a `List Event` trace, so ordering properties (onion order of the
interceptor chain, receive-before-receiver, send-after-receiver) are
equations between traces.  Go interface values that may be nil are
`Option`; a Go `(value, error)` pair is a Lean product with an
`Option GoErr` error component.
-/

namespace Drpc

/-- Opaque context value carried by a stream (`context.Context`); the
dispatch core only threads it through, so a plain token suffices. -/
abbrev Ctx := Nat

/-- Opaque encoding capability (`drpc.Encoding`); the core only passes it
to stream send/receive, so a token suffices. -/
abbrev Enc := Nat

/-- Opaque service instance (`data.srv`); only passed through to the
receiver. -/
abbrev Srv := Nat

/-- A Go dynamic value held in a non-nil interface.  `ptr` is a value of a
nilable dynamic kind (pointer, map, slice, ...) with its own nilness flag;
`structVal` is a value of a non-nilable kind (e.g. a struct), on which
`reflect.Value.IsNil` panics. -/
inductive GoValue where
  | ptr (isNil : Bool) (payload : String)
  | structVal (payload : String)
  deriving DecidableEq, Repr

/-- Go errors as the dispatch core distinguishes them: `protocol` models
`drpc.ProtocolError.New`, `internal` models `drpc.InternalError.New`,
`wrapped` models `errs.Wrap` of a non-nil error, and `errText` any other
error value (handler / transport errors). -/
inductive GoErr where
  | protocol (msg : String)
  | internal (msg : String)
  | wrapped (e : GoErr)
  | errText (msg : String)
  deriving DecidableEq, Repr

/-- Model of `errs.Wrap`: nil stays nil, a non-nil error is wrapped. -/
def errsWrap : Option GoErr → Option GoErr
  | none => none
  | some e => some (GoErr.wrapped e)

/-- Description of the `req` argument a receiver was invoked with, as
recorded in the trace: either a decoded message value or a stream
(identified by its id). -/
inductive ArgDesc where
  | msgArg (v : GoValue)
  | streamArg (sid : Nat)
  deriving DecidableEq, Repr

/-- Observable events of one dispatched call. -/
inductive Event where
  | recv (sid : Nat)
  | send (sid : Nat) (msg : GoValue) (enc : Enc)
  | closeSend (sid : Nat)
  | pre (i : Nat) (rpc : String)
  | post (i : Nat) (rpc : String)
  | handlerRun
  | receiverRun (arg : ArgDesc) (sid : Nat)
  | invoke (rpc : String)
  | newStreamEvt (rpc : String)
  deriving DecidableEq, Repr

/-- Model of a `drpc.Stream`: an id (so traces can tell streams apart), the
context it carries, and the outcome each of its operations would produce.
`recvVal` is the message value a successful `MsgRecv` deposits into the
fresh container. -/
structure Stream where
  id : Nat
  ctx : Ctx
  recvErr : Option GoErr
  recvVal : GoValue
  sendErr : GoValue → Enc → Option GoErr
  closeSendErr : Option GoErr

/-- `stream.Context()`. -/
def Stream.Context (s : Stream) : Ctx := s.ctx

/-- `stream.MsgRecv(msg, enc)`: records a receive event and returns the
stream's configured receive error. -/
def Stream.MsgRecv (s : Stream) (_enc : Enc) : Option GoErr × List Event :=
  (s.recvErr, [Event.recv s.id])

/-- `stream.MsgSend(msg, enc)`: records a send event carrying the exact
message and encoding used. -/
def Stream.MsgSend (s : Stream) (v : GoValue) (enc : Enc) : Option GoErr × List Event :=
  (s.sendErr v enc, [Event.send s.id v enc])

/-- `stream.CloseSend()`: records a close-send event. -/
def Stream.CloseSend (s : Stream) : Option GoErr × List Event :=
  (s.closeSendErr, [Event.closeSend s.id])

/-- The `interface{}` value passed as the receiver's input argument: either
a decoded unary message or the stream itself. -/
inductive InArg where
  | msg (v : GoValue)
  | strm (s : Stream)

/-- Trace description of an `InArg`. -/
def describe : InArg → ArgDesc
  | InArg.msg v => ArgDesc.msgArg v
  | InArg.strm s => ArgDesc.streamArg s.id

/-- The declared input type of a registration (`data.in1`, a
`reflect.Type` in Go): either the stream sentinel `streamType`, or a
message pointer type.  `containerIsMessage` records whether a freshly
constructed container of this type implements `drpc.Message`
(the type assertion in `msgRecv`). -/
inductive InType where
  | streamType
  | msgType (containerIsMessage : Bool)
  deriving DecidableEq, Repr

/-- Whether `reflect.New(in1.Elem()).Interface().(drpc.Message)` succeeds
for this input type. -/
def InType.containerMessage : InType → Bool
  | InType.streamType => false
  | InType.msgType b => b

/-- The fresh zero-valued message container produced by
`reflect.New(data.in1.Elem())`: a non-nil pointer to a zero value. -/
def freshContainer : GoValue := GoValue.ptr false "fresh"

/-- The result pair `(out interface{}, err error)` returned by receivers,
handlers and server interceptors.  `none` in the first component is a nil
interface value. -/
abbrev Res := Option GoValue × Option GoErr

/-- `drpc.Receiver`: `(srv, ctx, in, stream) -> (out, err)`, paired with
the trace of effects it performs. -/
def Receiver := Srv → Ctx → InArg → Stream → Res × List Event

/-- Registration entry for one RPC name.  The Go `rpcData` definition
lives in the registry file that is not part of this tree; its fields are
reconstructed from their use in `HandleRPC` and the spec's registration
entry (name, encoding, receiver, service instance, input shape,
fully-unary flag). -/
structure rpcData where
  srv : Srv
  enc : Enc
  receiver : Receiver
  in1 : InType
  unitary : Bool

/-- `UnaryHandler` from interceptor.go:
`func(ctx, req interface{}) (out interface{}, err error)`. -/
def UnaryHandler := Ctx → InArg → Res × List Event

/-- `UnaryServerInterceptor` from interceptor.go:
`func(ctx, req, rpc, handler) (out, err)`. -/
def UnaryServerInterceptor := Ctx → InArg → String → UnaryHandler → Res × List Event

/-- `StreamHandler` from interceptor.go:
`func(stream drpc.Stream) (out interface{}, err error)`. -/
def StreamHandler := Stream → Res × List Event

/-- `StreamServerInterceptor` from interceptor.go:
`func(stream, rpc, handler) (out, err)`. -/
def StreamServerInterceptor := Stream → String → StreamHandler → Res × List Event

/-- Fallback interceptor for out-of-range list indexing in the model; the
recursion in `getChainedUnaryHandler` stops at the list length, so it is
never consulted. -/
def defaultUnaryInt : UnaryServerInterceptor :=
  fun ctx req _ handler => handler ctx req

/-- Fallback stream interceptor for out-of-range indexing; never
consulted. -/
def defaultStreamInt : StreamServerInterceptor :=
  fun stream _ handler => handler stream

/-- `getChainedUnaryHandler` from interceptor.go: recursively builds the
handler that runs `interceptors[currIdx..]` around `handler`.  The Go
guard `currIdx == len(interceptors)` is written `len <= currIdx`, which
agrees with it on every reachable call (the index only ever counts up to
the length). -/
def getChainedUnaryHandler (interceptors : List UnaryServerInterceptor) (currIdx : Nat)
    (rpc : String) (handler : UnaryHandler) : UnaryHandler :=
  if _h : interceptors.length ≤ currIdx then
    handler
  else
    fun ctx req =>
      (interceptors.getD currIdx defaultUnaryInt) ctx req rpc
        (getChainedUnaryHandler interceptors (currIdx + 1) rpc handler)
termination_by interceptors.length - currIdx
decreasing_by simp_wf; omega

/-- `chainUnaryInterceptors` from interceptor.go: zero interceptors
compose to `none` (Go nil), one composes to itself, more compose to a
function that invokes the first with the chained rest as its handler. -/
def chainUnaryInterceptors (interceptors : List UnaryServerInterceptor) :
    Option UnaryServerInterceptor :=
  match interceptors with
  | [] => none
  | [i] => some i
  | i0 :: _ :: _ =>
    some (fun ctx req rpc handler =>
      i0 ctx req rpc (getChainedUnaryHandler interceptors 1 rpc handler))

/-- `getChainedStreamHandler` from interceptor.go, mirror of the unary
version. -/
def getChainedStreamHandler (interceptors : List StreamServerInterceptor) (currIdx : Nat)
    (rpc : String) (handler : StreamHandler) : StreamHandler :=
  if _h : interceptors.length ≤ currIdx then
    handler
  else
    fun stream =>
      (interceptors.getD currIdx defaultStreamInt) stream rpc
        (getChainedStreamHandler interceptors (currIdx + 1) rpc handler)
termination_by interceptors.length - currIdx
decreasing_by simp_wf; omega

/-- `chainStreamInterceptors` from interceptor.go. -/
def chainStreamInterceptors (interceptors : List StreamServerInterceptor) :
    Option StreamServerInterceptor :=
  match interceptors with
  | [] => none
  | [i] => some i
  | i0 :: _ :: _ =>
    some (fun stream rpc handler =>
      i0 stream rpc (getChainedStreamHandler interceptors 1 rpc handler))

/-- The method registry (`Mux`): RPC-name lookup plus the composed
interceptor chains.  The Go `Mux` struct itself is declared in the
registry file outside this tree; the fields are those `HandleRPC`
reads. -/
structure Mux where
  rpcs : String → Option rpcData
  unaryInterceptor : Option UnaryServerInterceptor
  streamInterceptor : Option StreamServerInterceptor

/-- `Mux.msgRecv` from handle_rpc.go: construct a fresh input container
(`reflect.New(data.in1.Elem())`), fail with an internal error if it is not
a `drpc.Message`, else receive into it from the stream and return the
filled message with `errs.Wrap` of the receive error. -/
def Mux.msgRecv (_m : Mux) (data : rpcData) (stream : Stream) :
    (GoValue × Option GoErr) × List Event :=
  if data.in1.containerMessage then
    let (rerr, ev) := stream.MsgRecv data.enc
    match rerr with
    | some e => ((freshContainer, some (GoErr.wrapped e)), ev)
    | none => ((stream.recvVal, none), ev)
  else
    ((freshContainer, some (GoErr.internal "invalid rpc input type")), [])

/-- Model of `reflect.ValueOf(out).IsNil()` on the non-nil interface value
`out`: defined (returning the nilness) on nilable dynamic kinds, a panic
on non-nilable kinds such as structs. -/
def reflectIsNil : GoValue → Except String Bool
  | GoValue.ptr b _ => Except.ok b
  | GoValue.structVal _ =>
    Except.error "reflect: call of reflect.Value.IsNil on struct Value"

/-- Outcome of `HandleRPC`: a normal return (with the returned error, nil
or not) or a runtime panic escaping from the reflect-based nil check. -/
inductive HandleResult where
  | ok (err : Option GoErr)
  | panicked (msg : String)
  deriving DecidableEq, Repr

/-- `Mux.HandleRPC` from handle_rpc.go.  Lookup failure yields a protocol
error carrying the unknown name.  The dispatch switch mirrors the source:
fully-unary calls with a unary chain receive the input first and then run
the chain; non-unary calls with a stream chain run the chain, receiving
the input inside the chain's terminal when the input is a unary message;
everything else receives the input (when unary-shaped) and calls the
receiver directly.  The final switch wraps a non-nil error, sends a
present (non-nil, not dynamically nil) result, and close-sends
otherwise. -/
def Mux.HandleRPC (m : Mux) (originalStream : Stream) (rpc : String) :
    HandleResult × List Event :=
  match m.rpcs rpc with
  | none =>
    (HandleResult.ok (some (GoErr.protocol ("unknown rpc: " ++ rpc))), [])
  | some data =>
    let dispatched : Res × List Event :=
      match data.unitary, m.unaryInterceptor, m.streamInterceptor with
      | true, some unaryInt, _ =>
        let ((msg, rerr), ev1) := m.msgRecv data originalStream
        match rerr with
        | some e => ((none, some e), ev1)
        | none =>
          let (res, ev2) := unaryInt originalStream.Context (InArg.msg msg) rpc
            (fun ctx req => data.receiver data.srv ctx req originalStream)
          (res, ev1 ++ ev2)
      | false, _, some streamInt =>
        match data.in1 with
        | InType.streamType =>
          streamInt originalStream rpc
            (fun stream => data.receiver data.srv stream.Context (InArg.strm stream) stream)
        | InType.msgType _ =>
          streamInt originalStream rpc
            (fun stream =>
              let ((input, rerr), ev1) := m.msgRecv data stream
              match rerr with
              | some e => ((none, some e), ev1)
              | none =>
                let (res, ev2) :=
                  data.receiver data.srv stream.Context (InArg.msg input) stream
                (res, ev1 ++ ev2))
      | _, _, _ =>
        match data.in1 with
        | InType.streamType =>
          data.receiver data.srv originalStream.Context (InArg.strm originalStream)
            originalStream
        | InType.msgType _ =>
          let ((msg, rerr), ev1) := m.msgRecv data originalStream
          match rerr with
          | some e => ((none, some e), ev1)
          | none =>
            let (res, ev2) :=
              data.receiver data.srv originalStream.Context (InArg.msg msg) originalStream
            (res, ev1 ++ ev2)
    let ((out, err), evs) := dispatched
    match err with
    | some e => (HandleResult.ok (some (GoErr.wrapped e)), evs)
    | none =>
      match out with
      | some v =>
        match reflectIsNil v with
        | Except.error p => (HandleResult.panicked p, evs)
        | Except.ok false =>
          let (serr, ev) := originalStream.MsgSend v data.enc
          (HandleResult.ok serr, evs ++ ev)
        | Except.ok true =>
          let (cerr, ev) := originalStream.CloseSend
          (HandleResult.ok cerr, evs ++ ev)
      | none =>
        let (cerr, ev) := originalStream.CloseSend
        (HandleResult.ok cerr, evs ++ ev)

/-- The underlying transport connection (`drpc.Conn`) as the client call
wrapper consumes it: an `invoke` and a `newStream` operation, each with
its trace.  `newStream` returns the Go pair `(drpc.Stream, error)`. -/
structure Conn where
  invoke : Ctx → String → Enc → GoValue → GoValue → Option GoErr × List Event
  newStream : Ctx → String → Enc → (Option Stream × Option GoErr) × List Event

/-- `UnaryInvoker` from client_interceptors.go:
`func(ctx, rpc, enc, in, out, cc) error`.  The `cc *ClientConn` argument
threaded through the chain is modelled by its underlying `Conn`, the only
part of it the dispatch logic reads. -/
def UnaryInvoker := Ctx → String → Enc → GoValue → GoValue → Conn → Option GoErr × List Event

/-- `UnaryClientInterceptor` from client_interceptors.go:
`func(ctx, rpc, enc, in, out, cc, next) error`. -/
def UnaryClientInterceptor :=
  Ctx → String → Enc → GoValue → GoValue → Conn → UnaryInvoker → Option GoErr × List Event

/-- `Streamer` from client_interceptors.go:
`func(ctx, rpc, enc, cc) (drpc.Stream, error)`. -/
def Streamer := Ctx → String → Enc → Conn → (Option Stream × Option GoErr) × List Event

/-- `StreamClientInterceptor` from client_interceptors.go:
`func(ctx, rpc, enc, cc, streamer) (drpc.Stream, error)`. -/
def StreamClientInterceptor :=
  Ctx → String → Enc → Conn → Streamer → (Option Stream × Option GoErr) × List Event

/-- `dialOptions` from dialoptions.go: the composed effective interceptors
and the ordered interceptor lists they are built from. -/
structure dialOptions where
  unaryInt : Option UnaryClientInterceptor
  streamInt : Option StreamClientInterceptor
  unaryInts : List UnaryClientInterceptor
  streamInts : List StreamClientInterceptor

/-- `ClientConn` from client_interceptors.go: an embedded underlying
connection plus the dial options. -/
structure ClientConn where
  Conn : Conn
  dopts : dialOptions

/-- `finalInvoker` from client_interceptors.go: the terminal invoker of a
unary chain, delegating to the underlying connection's `Invoke`. -/
def finalInvoker (ctx : Ctx) (rpc : String) (enc : Enc) (inM outM : GoValue)
    (cc : Conn) : Option GoErr × List Event :=
  cc.invoke ctx rpc enc inM outM

/-- `ClientConn.Invoke` from client_interceptors.go: run the effective
unary interceptor with `finalInvoker` as terminal when one is configured,
else call the underlying connection directly. -/
def ClientConn.Invoke (c : ClientConn) (ctx : Ctx) (rpc : String) (enc : Enc)
    (inM outM : GoValue) : Option GoErr × List Event :=
  match c.dopts.unaryInt with
  | some ui => ui ctx rpc enc inM outM c.Conn finalInvoker
  | none => c.Conn.invoke ctx rpc enc inM outM

/-- `finalStreamer` from client_interceptors.go: the terminal streamer of
a stream chain, delegating to the underlying connection's `NewStream`. -/
def finalStreamer (ctx : Ctx) (rpc : String) (enc : Enc) (cc : Conn) :
    (Option Stream × Option GoErr) × List Event :=
  cc.newStream ctx rpc enc

/-- `ClientConn.NewStream` from client_interceptors.go, symmetric to
`Invoke`. -/
def ClientConn.NewStream (c : ClientConn) (ctx : Ctx) (rpc : String) (enc : Enc) :
    (Option Stream × Option GoErr) × List Event :=
  match c.dopts.streamInt with
  | some si => si ctx rpc enc c.Conn finalStreamer
  | none => c.Conn.newStream ctx rpc enc

/-- The chained invoker built by the downward loop in
`chainUnaryClientInterceptors`: starting from the terminal `invoker`,
wrap each interceptor from the last to the first around it — the loop
`for i := n-1; i >= 0; i--` is exactly a right fold over the list. -/
def chainedUnaryInvoker (ints : List UnaryClientInterceptor) (invoker : UnaryInvoker) :
    UnaryInvoker :=
  ints.foldr
    (fun interceptor next => fun ctx rpc enc inM outM conn =>
      interceptor ctx rpc enc inM outM conn next)
    invoker

/-- `chainUnaryClientInterceptors` from client_interceptors.go: store in
`dopts.unaryInt` nil for an empty list, the single interceptor for a
singleton, and otherwise the closure that folds the list around the
passed-in invoker at call time. -/
def chainUnaryClientInterceptors (cc : ClientConn) : ClientConn :=
  match cc.dopts.unaryInts with
  | [] => { cc with dopts := { cc.dopts with unaryInt := none } }
  | [i] => { cc with dopts := { cc.dopts with unaryInt := some i } }
  | _ :: _ :: _ =>
    let composed : UnaryClientInterceptor :=
      fun ctx rpc enc inM outM conn invoker =>
        chainedUnaryInvoker cc.dopts.unaryInts invoker ctx rpc enc inM outM conn
    { cc with dopts := { cc.dopts with unaryInt := some composed } }

/-- The chained streamer built by the downward loop in
`chainStreamClientInterceptors`, again a right fold. -/
def chainedStreamer (ints : List StreamClientInterceptor) (streamer : Streamer) :
    Streamer :=
  ints.foldr
    (fun interceptor next => fun ctx rpc enc conn =>
      interceptor ctx rpc enc conn next)
    streamer

/-- `chainStreamClientInterceptors` from client_interceptors.go. -/
def chainStreamClientInterceptors (cc : ClientConn) : ClientConn :=
  match cc.dopts.streamInts with
  | [] => { cc with dopts := { cc.dopts with streamInt := none } }
  | [i] => { cc with dopts := { cc.dopts with streamInt := some i } }
  | _ :: _ :: _ =>
    let composed : StreamClientInterceptor :=
      fun ctx rpc enc conn streamer =>
        chainedStreamer cc.dopts.streamInts streamer ctx rpc enc conn
    { cc with dopts := { cc.dopts with streamInt := some composed } }

/-- `ClientConn.initInterceptors` from client_interceptors.go: compose
both chains. -/
def ClientConn.initInterceptors (c : ClientConn) : ClientConn :=
  chainStreamClientInterceptors (chainUnaryClientInterceptors c)

/-! Canonical test instruments: interceptors that record a `pre` event,
call their next callable exactly once, record a `post` event and pass the
result through unchanged; a short-circuiting interceptor; terminal
handlers and receivers that record their own invocation.  These are the
observers over which the ordering claims are stated. -/

/-- A non-short-circuiting unary server interceptor labelled `i`: records
`pre i rpc`, calls the handler once, records `post i rpc`, and forwards
the handler's result unchanged. -/
def tracingUnary (i : Nat) : UnaryServerInterceptor :=
  fun ctx req rpc handler =>
    ((handler ctx req).1,
      Event.pre i rpc :: (handler ctx req).2 ++ [Event.post i rpc])

/-- A unary server interceptor labelled `i` that short-circuits: records
`pre i rpc` and returns `(nil, e)` without calling its handler. -/
def shortUnary (i : Nat) (e : GoErr) : UnaryServerInterceptor :=
  fun _ _ rpc _ => ((none, some e), [Event.pre i rpc])

/-- A non-short-circuiting stream server interceptor labelled `i`. -/
def tracingStream (i : Nat) : StreamServerInterceptor :=
  fun stream rpc handler =>
    ((handler stream).1,
      Event.pre i rpc :: (handler stream).2 ++ [Event.post i rpc])

/-- A stream server interceptor labelled `1` that calls its handler with
the replacement stream `s2` instead of the stream it was given. -/
def replacingStream (s2 : Stream) : StreamServerInterceptor :=
  fun _ rpc handler =>
    ((handler s2).1,
      Event.pre 1 rpc :: (handler s2).2 ++ [Event.post 1 rpc])

/-- Terminal unary handler returning a fixed result and recording that it
ran. -/
def terminalUnary (res : Res) : UnaryHandler :=
  fun _ _ => (res, [Event.handlerRun])

/-- Terminal stream handler returning a fixed result and recording that it
ran. -/
def terminalStream (res : Res) : StreamHandler :=
  fun _ => (res, [Event.handlerRun])

/-- The list of tracing unary interceptors labelled `1..n`, in order. -/
def unaryList (n : Nat) : List UnaryServerInterceptor :=
  (List.range' 1 n).map tracingUnary

/-- The list of tracing stream interceptors labelled `1..n`, in order. -/
def streamList (n : Nat) : List StreamServerInterceptor :=
  (List.range' 1 n).map tracingStream

/-- Tracing interceptors `1..n` except that interceptor `k`
short-circuits with error `e`. -/
def scList (n k : Nat) (e : GoErr) : List UnaryServerInterceptor :=
  (List.range' 1 n).map fun j => if j = k then shortUnary k e else tracingUnary j

/-- A non-short-circuiting unary client interceptor labelled `i`. -/
def tracingClientUnary (i : Nat) : UnaryClientInterceptor :=
  fun ctx rpc enc inM outM conn next =>
    ((next ctx rpc enc inM outM conn).1,
      Event.pre i rpc :: (next ctx rpc enc inM outM conn).2 ++ [Event.post i rpc])

/-- A non-short-circuiting stream client interceptor labelled `i`. -/
def tracingClientStream (i : Nat) : StreamClientInterceptor :=
  fun ctx rpc enc conn streamer =>
    ((streamer ctx rpc enc conn).1,
      Event.pre i rpc :: (streamer ctx rpc enc conn).2 ++ [Event.post i rpc])

/-- Tracing unary client interceptors labelled `1..n`. -/
def clientUnaryList (n : Nat) : List UnaryClientInterceptor :=
  (List.range' 1 n).map tracingClientUnary

/-- Tracing stream client interceptors labelled `1..n`. -/
def clientStreamList (n : Nat) : List StreamClientInterceptor :=
  (List.range' 1 n).map tracingClientStream

/-- A stream with the given id, context and pending inbound message, all
of whose operations succeed. -/
def mkStream (sid : Nat) (ctxv : Ctx) (rv : GoValue) : Stream :=
  { id := sid, ctx := ctxv, recvErr := none, recvVal := rv,
    sendErr := fun _ _ => none, closeSendErr := none }

/-- A stream whose receive operation fails with `e`; send and close-send
would succeed. -/
def mkStreamRecvErr (sid : Nat) (ctxv : Ctx) (e : GoErr) : Stream :=
  { id := sid, ctx := ctxv, recvErr := some e, recvVal := freshContainer,
    sendErr := fun _ _ => none, closeSendErr := none }

/-- A fixed stream returned by the tracing connection's `newStream`. -/
def dummyStream : Stream := mkStream 0 0 freshContainer

/-- An underlying connection whose operations succeed and record an event
carrying the rpc name they were called with. -/
def tracingConn : Conn :=
  { invoke := fun _ rpc _ _ _ => (none, [Event.invoke rpc]),
    newStream := fun _ rpc _ => ((some dummyStream, none), [Event.newStreamEvt rpc]) }

/-- A client connection over `conn` configured with the given interceptor
lists and no composed chains yet. -/
def mkCC (conn : Conn) (ul : List UnaryClientInterceptor)
    (sl : List StreamClientInterceptor) : ClientConn :=
  { Conn := conn,
    dopts := { unaryInt := none, streamInt := none, unaryInts := ul, streamInts := sl } }

/-- A receiver returning the fixed result `res` and recording its
invocation with a description of its input argument and the id of the
stream handle it was passed. -/
def constReceiver (res : Res) : Receiver :=
  fun _ _ arg stream => (res, [Event.receiverRun (describe arg) stream.id])

/-- A registration entry with the given shape flags, encoding, service
instance and receiver. -/
def mkData (unit : Bool) (it : InType) (enc : Enc) (srv : Srv) (r : Receiver) : rpcData :=
  { srv := srv, enc := enc, receiver := r, in1 := it, unitary := unit }

/-- A registry that resolves every name to `d`, with the given composed
interceptors. -/
def mkMux (d : rpcData) (u : Option UnaryServerInterceptor)
    (st : Option StreamServerInterceptor) : Mux :=
  { rpcs := fun _ => some d, unaryInterceptor := u, streamInterceptor := st }

/-- The pre-logic segment of the onion trace: `pre a, pre (a+1), ...`,
`len` layers starting at label `a`, all carrying the rpc name `rpc`. -/
def preSeg (rpc : String) (a len : Nat) : List Event :=
  (List.range' a len).map fun j => Event.pre j rpc

/-- The post-logic segment of the onion trace: `post (a+len-1), ...,
post a`, i.e. the labels of `preSeg` in reverse order. -/
def postSeg (rpc : String) (a len : Nat) : List Event :=
  (List.range' a len).reverse.map fun j => Event.post j rpc

/-! Helper lemmas about the chain recursions and the canonical tracing
instruments. -/

theorem getChainedUnaryHandler_stop (ints : List UnaryServerInterceptor) (k : Nat)
    (rpc : String) (H : UnaryHandler) (h : ints.length ≤ k) :
    getChainedUnaryHandler ints k rpc H = H := by
  unfold getChainedUnaryHandler
  rw [dif_pos h]

theorem getChainedUnaryHandler_step (ints : List UnaryServerInterceptor) (k : Nat)
    (rpc : String) (H : UnaryHandler) (h : k < ints.length) :
    getChainedUnaryHandler ints k rpc H
      = fun ctx req =>
          (ints.getD k defaultUnaryInt) ctx req rpc
            (getChainedUnaryHandler ints (k + 1) rpc H) := by
  conv_lhs => rw [getChainedUnaryHandler]
  rw [dif_neg (by omega)]

theorem getChainedStreamHandler_stop (ints : List StreamServerInterceptor) (k : Nat)
    (rpc : String) (H : StreamHandler) (h : ints.length ≤ k) :
    getChainedStreamHandler ints k rpc H = H := by
  unfold getChainedStreamHandler
  rw [dif_pos h]

theorem getChainedStreamHandler_step (ints : List StreamServerInterceptor) (k : Nat)
    (rpc : String) (H : StreamHandler) (h : k < ints.length) :
    getChainedStreamHandler ints k rpc H
      = fun stream =>
          (ints.getD k defaultStreamInt) stream rpc
            (getChainedStreamHandler ints (k + 1) rpc H) := by
  conv_lhs => rw [getChainedStreamHandler]
  rw [dif_neg (by omega)]

theorem unaryList_length (n : Nat) : (unaryList n).length = n := by
  simp [unaryList]

theorem streamList_length (n : Nat) : (streamList n).length = n := by
  simp [streamList]

theorem scList_length (n k : Nat) (e : GoErr) : (scList n k e).length = n := by
  simp [scList]

theorem unaryList_getD (n k : Nat) (h : k < n) :
    (unaryList n).getD k defaultUnaryInt = tracingUnary (k + 1) := by
  rw [List.getD_eq_getElem _ _ (by simp [unaryList]; omega)]
  simp [unaryList, List.getElem_range'_1]
  rw [Nat.add_comm 1 k]

theorem streamList_getD (n k : Nat) (h : k < n) :
    (streamList n).getD k defaultStreamInt = tracingStream (k + 1) := by
  rw [List.getD_eq_getElem _ _ (by simp [streamList]; omega)]
  simp [streamList, List.getElem_range'_1]
  rw [Nat.add_comm 1 k]

theorem scList_getD (n k j : Nat) (e : GoErr) (h : j < n) :
    (scList n k e).getD j defaultUnaryInt
      = if j + 1 = k then shortUnary k e else tracingUnary (j + 1) := by
  rw [List.getD_eq_getElem _ _ (by simp [scList]; omega)]
  simp [scList, List.getElem_range'_1]
  rw [Nat.add_comm 1 j]

theorem getChained_unaryList_trace (n : Nat) (rpc : String) (res : Res) :
    ∀ d k, k + d = n → ∀ (ctx : Ctx) (req : InArg),
      getChainedUnaryHandler (unaryList n) k rpc (terminalUnary res) ctx req
        = (res, preSeg rpc (k + 1) d ++ Event.handlerRun :: postSeg rpc (k + 1) d) := by
  intro d
  induction d with
  | zero =>
    intro k hk ctx req
    rw [getChainedUnaryHandler_stop _ _ _ _ (by rw [unaryList_length]; omega)]
    simp [terminalUnary, preSeg, postSeg]
  | succ d ih =>
    intro k hk ctx req
    rw [getChainedUnaryHandler_step _ _ _ _ (by rw [unaryList_length]; omega)]
    rw [unaryList_getD n k (by omega)]
    simp only [tracingUnary]
    rw [ih (k + 1) (by omega)]
    simp [preSeg, postSeg, List.range'_succ, List.reverse_cons, List.map_append,
      List.append_assoc, List.cons_append]

theorem getChained_streamList_trace (n : Nat) (rpc : String) (res : Res) :
    ∀ d k, k + d = n → ∀ (s : Stream),
      getChainedStreamHandler (streamList n) k rpc (terminalStream res) s
        = (res, preSeg rpc (k + 1) d ++ Event.handlerRun :: postSeg rpc (k + 1) d) := by
  intro d
  induction d with
  | zero =>
    intro k hk s
    rw [getChainedStreamHandler_stop _ _ _ _ (by rw [streamList_length]; omega)]
    simp [terminalStream, preSeg, postSeg]
  | succ d ih =>
    intro k hk s
    rw [getChainedStreamHandler_step _ _ _ _ (by rw [streamList_length]; omega)]
    rw [streamList_getD n k (by omega)]
    simp only [tracingStream]
    rw [ih (k + 1) (by omega)]
    simp [preSeg, postSeg, List.range'_succ, List.reverse_cons, List.map_append,
      List.append_assoc, List.cons_append]

theorem getChained_scList_trace (n k : Nat) (e : GoErr) (rpc : String) (hkn : k ≤ n) :
    ∀ d j, j + d + 1 = k → ∀ (ctx : Ctx) (req : InArg) (H : UnaryHandler),
      getChainedUnaryHandler (scList n k e) j rpc H ctx req
        = ((none, some e), preSeg rpc (j + 1) (d + 1) ++ postSeg rpc (j + 1) d) := by
  intro d
  induction d with
  | zero =>
    intro j hj ctx req H
    rw [getChainedUnaryHandler_step _ _ _ _ (by rw [scList_length]; omega)]
    rw [scList_getD n k j e (by omega)]
    rw [if_pos (by omega)]
    simp only [shortUnary]
    have hjk : j + 1 = k := by omega
    simp [preSeg, postSeg, List.range'_succ, hjk]
  | succ d ih =>
    intro j hj ctx req H
    rw [getChainedUnaryHandler_step _ _ _ _ (by rw [scList_length]; omega)]
    rw [scList_getD n k j e (by omega)]
    rw [if_neg (by omega)]
    simp only [tracingUnary]
    rw [ih (j + 1) (by omega)]
    simp [preSeg, postSeg, List.range'_succ, List.reverse_cons, List.map_append,
      List.append_assoc, List.cons_append]

theorem chainUnaryInterceptors_ex (l : List UnaryServerInterceptor) (h : l ≠ []) :
    ∃ c, chainUnaryInterceptors l = some c := by
  match l with
  | [] => exact absurd rfl h
  | [a] => exact ⟨a, rfl⟩
  | a :: b :: t => exact ⟨_, rfl⟩

theorem chainStreamInterceptors_ex (l : List StreamServerInterceptor) (h : l ≠ []) :
    ∃ c, chainStreamInterceptors l = some c := by
  match l with
  | [] => exact absurd rfl h
  | [a] => exact ⟨a, rfl⟩
  | a :: b :: t => exact ⟨_, rfl⟩

theorem chainUnaryInterceptors_apply (l : List UnaryServerInterceptor)
    (c : UnaryServerInterceptor) (h : chainUnaryInterceptors l = some c)
    (ctx : Ctx) (req : InArg) (rpc : String) (H : UnaryHandler) :
    c ctx req rpc H = getChainedUnaryHandler l 0 rpc H ctx req := by
  match l with
  | [] => simp [chainUnaryInterceptors] at h
  | [a] =>
    simp only [chainUnaryInterceptors, Option.some.injEq] at h
    subst h
    rw [getChainedUnaryHandler_step _ _ _ _ (by simp)]
    rw [getChainedUnaryHandler_stop _ _ _ _ (by simp)]
    rfl
  | a :: b :: t =>
    simp only [chainUnaryInterceptors, Option.some.injEq] at h
    subst h
    rw [getChainedUnaryHandler_step _ _ _ _ (by simp)]
    rfl

theorem chainStreamInterceptors_apply (l : List StreamServerInterceptor)
    (c : StreamServerInterceptor) (h : chainStreamInterceptors l = some c)
    (s : Stream) (rpc : String) (H : StreamHandler) :
    c s rpc H = getChainedStreamHandler l 0 rpc H s := by
  match l with
  | [] => simp [chainStreamInterceptors] at h
  | [a] =>
    simp only [chainStreamInterceptors, Option.some.injEq] at h
    subst h
    rw [getChainedStreamHandler_step _ _ _ _ (by simp)]
    rw [getChainedStreamHandler_stop _ _ _ _ (by simp)]
    rfl
  | a :: b :: t =>
    simp only [chainStreamInterceptors, Option.some.injEq] at h
    subst h
    rw [getChainedStreamHandler_step _ _ _ _ (by simp)]
    rfl

theorem chainedUnaryInvoker_trace (l : List Nat) (F : UnaryInvoker) (ctx : Ctx)
    (rpc : String) (enc : Enc) (i o : GoValue) (conn : Conn) :
    chainedUnaryInvoker (l.map tracingClientUnary) F ctx rpc enc i o conn
      = ((F ctx rpc enc i o conn).1,
         ((l.map fun j => Event.pre j rpc) ++ (F ctx rpc enc i o conn).2)
           ++ l.reverse.map fun j => Event.post j rpc) := by
  induction l with
  | nil => simp [chainedUnaryInvoker]
  | cons a t ih =>
    have hstep : chainedUnaryInvoker ((a :: t).map tracingClientUnary) F
        = fun ctx rpc enc i o conn =>
            tracingClientUnary a ctx rpc enc i o conn
              (chainedUnaryInvoker (t.map tracingClientUnary) F) := rfl
    rw [hstep]
    simp only [tracingClientUnary]
    rw [ih]
    simp [List.reverse_cons, List.map_append, List.append_assoc, List.cons_append]

theorem chainedStreamer_trace (l : List Nat) (F : Streamer) (ctx : Ctx)
    (rpc : String) (enc : Enc) (conn : Conn) :
    chainedStreamer (l.map tracingClientStream) F ctx rpc enc conn
      = ((F ctx rpc enc conn).1,
         ((l.map fun j => Event.pre j rpc) ++ (F ctx rpc enc conn).2)
           ++ l.reverse.map fun j => Event.post j rpc) := by
  induction l with
  | nil => simp [chainedStreamer]
  | cons a t ih =>
    have hstep : chainedStreamer ((a :: t).map tracingClientStream) F
        = fun ctx rpc enc conn =>
            tracingClientStream a ctx rpc enc conn
              (chainedStreamer (t.map tracingClientStream) F) := rfl
    rw [hstep]
    simp only [tracingClientStream]
    rw [ih]
    simp [List.reverse_cons, List.map_append, List.append_assoc, List.cons_append]

theorem clientUnary_invoke_eq_fold (conn : Conn) (ul : List UnaryClientInterceptor)
    (sl : List StreamClientInterceptor) (h : ul ≠ []) (ctx : Ctx) (rpc : String)
    (enc : Enc) (i o : GoValue) :
    (chainUnaryClientInterceptors (mkCC conn ul sl)).Invoke ctx rpc enc i o
      = chainedUnaryInvoker ul finalInvoker ctx rpc enc i o conn := by
  match ul with
  | [] => exact absurd rfl h
  | [a] => rfl
  | a :: b :: t => rfl

theorem clientStream_newStream_eq_fold (conn : Conn) (ul : List UnaryClientInterceptor)
    (sl : List StreamClientInterceptor) (h : sl ≠ []) (ctx : Ctx) (rpc : String)
    (enc : Enc) :
    (chainStreamClientInterceptors (mkCC conn ul sl)).NewStream ctx rpc enc
      = chainedStreamer sl finalStreamer ctx rpc enc conn := by
  match sl with
  | [] => exact absurd rfl h
  | [a] => rfl
  | a :: b :: t => rfl

theorem unaryList_ne_nil (n : Nat) : unaryList (n + 1) ≠ [] := by
  intro hh
  have := congrArg List.length hh
  simp [unaryList] at this

theorem streamList_ne_nil (n : Nat) : streamList (n + 1) ≠ [] := by
  intro hh
  have := congrArg List.length hh
  simp [streamList] at this

theorem clientUnaryList_ne_nil (n : Nat) : clientUnaryList (n + 1) ≠ [] := by
  intro hh
  have := congrArg List.length hh
  simp [clientUnaryList] at this

theorem clientStreamList_ne_nil (n : Nat) : clientStreamList (n + 1) ≠ [] := by
  intro hh
  have := congrArg List.length hh
  simp [clientStreamList] at this

/-- C1: composing `n + 1` pass-through interceptors (unary or stream,
server or client) around a terminal that does not short-circuit and
invoking the composition with rpc name `rpc` produces the onion trace:
pre-logic of layers `1..n+1` in order, then the terminal, then post-logic
of layers `n+1..1`, every layer observing the same rpc name that was
supplied at dispatch time, and the terminal's result passing through
unchanged. -/
theorem c1_interceptor_chain_onion_order (n : Nat) (rpc : String) (res : Res)
    (ctx : Ctx) (req : InArg) (s : Stream) (enc : Enc) (i o : GoValue) :
    (∃ c, chainUnaryInterceptors (unaryList (n + 1)) = some c ∧
        c ctx req rpc (terminalUnary res)
          = (res, preSeg rpc 1 (n + 1) ++ Event.handlerRun :: postSeg rpc 1 (n + 1)))
  ∧ (∃ c, chainStreamInterceptors (streamList (n + 1)) = some c ∧
        c s rpc (terminalStream res)
          = (res, preSeg rpc 1 (n + 1) ++ Event.handlerRun :: postSeg rpc 1 (n + 1)))
  ∧ ((chainUnaryClientInterceptors (mkCC tracingConn (clientUnaryList (n + 1)) [])).Invoke
        ctx rpc enc i o
      = (none, preSeg rpc 1 (n + 1) ++ Event.invoke rpc :: postSeg rpc 1 (n + 1)))
  ∧ ((chainStreamClientInterceptors (mkCC tracingConn [] (clientStreamList (n + 1)))).NewStream
        ctx rpc enc
      = ((some dummyStream, none),
         preSeg rpc 1 (n + 1) ++ Event.newStreamEvt rpc :: postSeg rpc 1 (n + 1))) := by
  refine ⟨?_, ?_, ?_, ?_⟩
  · obtain ⟨c, hc⟩ := chainUnaryInterceptors_ex (unaryList (n + 1)) (unaryList_ne_nil n)
    refine ⟨c, hc, ?_⟩
    rw [chainUnaryInterceptors_apply _ _ hc]
    exact getChained_unaryList_trace (n + 1) rpc res (n + 1) 0 (by omega) ctx req
  · obtain ⟨c, hc⟩ := chainStreamInterceptors_ex (streamList (n + 1)) (streamList_ne_nil n)
    refine ⟨c, hc, ?_⟩
    rw [chainStreamInterceptors_apply _ _ hc]
    exact getChained_streamList_trace (n + 1) rpc res (n + 1) 0 (by omega) s
  · rw [clientUnary_invoke_eq_fold tracingConn _ _ (clientUnaryList_ne_nil n)]
    rw [clientUnaryList, chainedUnaryInvoker_trace]
    simp [finalInvoker, tracingConn, preSeg, postSeg, List.append_assoc]
  · rw [clientStream_newStream_eq_fold tracingConn _ _ (clientStreamList_ne_nil n)]
    rw [clientStreamList, chainedStreamer_trace]
    simp [finalStreamer, tracingConn, preSeg, postSeg, List.append_assoc]

/-- C2: chain selection in `HandleRPC`.  With both chains configured, a
unary-input/stream-output call and a stream-input call run through the
stream interceptor (label 200) and never the unary one (label 100), while
a fully-unary call runs through the unary interceptor; when the only
configured chain does not match the call's shape (only unary configured
but the call is stream-shaped, or only stream configured but the call is
fully unary), the receiver is invoked directly and no interceptor
executes. -/
theorem c2_handle_rpc_chain_routing (sid ctxv : Nat) (rv : GoValue) (enc : Enc)
    (srv : Srv) (rpc : String) :
    (Mux.HandleRPC (mkMux (mkData false (InType.msgType true) enc srv (constReceiver (none, none)))
        (some (tracingUnary 100)) (some (tracingStream 200))) (mkStream sid ctxv rv) rpc
      = (HandleResult.ok none,
         [Event.pre 200 rpc, Event.recv sid, Event.receiverRun (ArgDesc.msgArg rv) sid,
          Event.post 200 rpc, Event.closeSend sid]))
  ∧ (Mux.HandleRPC (mkMux (mkData false InType.streamType enc srv (constReceiver (none, none)))
        (some (tracingUnary 100)) (some (tracingStream 200))) (mkStream sid ctxv rv) rpc
      = (HandleResult.ok none,
         [Event.pre 200 rpc, Event.receiverRun (ArgDesc.streamArg sid) sid,
          Event.post 200 rpc, Event.closeSend sid]))
  ∧ (Mux.HandleRPC (mkMux (mkData true (InType.msgType true) enc srv (constReceiver (none, none)))
        (some (tracingUnary 100)) (some (tracingStream 200))) (mkStream sid ctxv rv) rpc
      = (HandleResult.ok none,
         [Event.recv sid, Event.pre 100 rpc, Event.receiverRun (ArgDesc.msgArg rv) sid,
          Event.post 100 rpc, Event.closeSend sid]))
  ∧ (Mux.HandleRPC (mkMux (mkData false InType.streamType enc srv (constReceiver (none, none)))
        (some (tracingUnary 100)) none) (mkStream sid ctxv rv) rpc
      = (HandleResult.ok none,
         [Event.receiverRun (ArgDesc.streamArg sid) sid, Event.closeSend sid]))
  ∧ (Mux.HandleRPC (mkMux (mkData false (InType.msgType true) enc srv (constReceiver (none, none)))
        (some (tracingUnary 100)) none) (mkStream sid ctxv rv) rpc
      = (HandleResult.ok none,
         [Event.recv sid, Event.receiverRun (ArgDesc.msgArg rv) sid, Event.closeSend sid]))
  ∧ (Mux.HandleRPC (mkMux (mkData true (InType.msgType true) enc srv (constReceiver (none, none)))
        none (some (tracingStream 200))) (mkStream sid ctxv rv) rpc
      = (HandleResult.ok none,
         [Event.recv sid, Event.receiverRun (ArgDesc.msgArg rv) sid, Event.closeSend sid])) :=
  ⟨rfl, rfl, rfl, rfl, rfl, rfl⟩

/-- C3: result disposal in `HandleRPC`.  A non-nil receiver error is
returned wrapped with nothing further sent; a present result (non-nil
interface holding a non-nil value) is sent exactly once with the
registration's encoding and close-send is not called; a nil result, or a
non-nil interface holding a dynamically nil pointer, leads to close-send
with no message sent. -/
theorem c3_handle_rpc_result_disposal (sid ctxv : Nat) (rv : GoValue) (enc : Enc)
    (srv : Srv) (rpc : String) (e : GoErr) (p : String) :
    (Mux.HandleRPC (mkMux (mkData false InType.streamType enc srv (constReceiver (none, some e)))
        none none) (mkStream sid ctxv rv) rpc
      = (HandleResult.ok (some (GoErr.wrapped e)),
         [Event.receiverRun (ArgDesc.streamArg sid) sid]))
  ∧ (Mux.HandleRPC (mkMux (mkData false InType.streamType enc srv
        (constReceiver (some (GoValue.ptr false p), some e))) none none) (mkStream sid ctxv rv) rpc
      = (HandleResult.ok (some (GoErr.wrapped e)),
         [Event.receiverRun (ArgDesc.streamArg sid) sid]))
  ∧ (Mux.HandleRPC (mkMux (mkData false InType.streamType enc srv
        (constReceiver (some (GoValue.ptr false p), none))) none none) (mkStream sid ctxv rv) rpc
      = (HandleResult.ok none,
         [Event.receiverRun (ArgDesc.streamArg sid) sid,
          Event.send sid (GoValue.ptr false p) enc]))
  ∧ (Mux.HandleRPC (mkMux (mkData false InType.streamType enc srv
        (constReceiver (some (GoValue.ptr true p), none))) none none) (mkStream sid ctxv rv) rpc
      = (HandleResult.ok none,
         [Event.receiverRun (ArgDesc.streamArg sid) sid, Event.closeSend sid]))
  ∧ (Mux.HandleRPC (mkMux (mkData false InType.streamType enc srv (constReceiver (none, none)))
        none none) (mkStream sid ctxv rv) rpc
      = (HandleResult.ok none,
         [Event.receiverRun (ArgDesc.streamArg sid) sid, Event.closeSend sid])) :=
  ⟨rfl, rfl, rfl, rfl, rfl⟩

/-- C4: `HandleRPC` on a name absent from the registry returns a
protocol-kind error carrying the unknown name, with an empty trace — no
receive, no send, no close-send, no interceptor and no receiver — and the
protocol kind is distinguishable from the internal kind. -/
theorem c4_handle_rpc_unknown_rpc (m : Mux) (s : Stream) (rpc : String)
    (h : m.rpcs rpc = none) :
    Mux.HandleRPC m s rpc
      = (HandleResult.ok (some (GoErr.protocol ("unknown rpc: " ++ rpc))), [])
    ∧ ∀ x y, GoErr.protocol x ≠ GoErr.internal y := by
  constructor
  · simp only [Mux.HandleRPC, h]
  · intro x y hxy
    cases hxy

/-- Witness for C4 at a concrete empty registry, stream and name. -/
theorem c4_handle_rpc_unknown_rpc_witness :
    Mux.HandleRPC
        { rpcs := fun _ => none, unaryInterceptor := none, streamInterceptor := none }
        (mkStream 1 2 freshContainer) "svc.Method"
      = (HandleResult.ok (some (GoErr.protocol ("unknown rpc: " ++ "svc.Method"))), [])
    ∧ ∀ x y, GoErr.protocol x ≠ GoErr.internal y :=
  c4_handle_rpc_unknown_rpc _ _ _ rfl

/-- C5: if interceptor `a + 1` of a composed chain of `a + 1 + b`
interceptors short-circuits with error `e` (never calling its next
callable), the composed call returns exactly `(nil, e)`, the trace shows
pre-logic of layers `1..a+1` followed by post-logic of layers `a..1`, and
neither the layers above `a + 1` nor the terminal handler (arbitrary
here) ever run. -/
theorem c5_chain_short_circuit (a b : Nat) (e : GoErr) (rpc : String)
    (ctx : Ctx) (req : InArg) (H : UnaryHandler) :
    ∃ c, chainUnaryInterceptors (scList (a + 1 + b) (a + 1) e) = some c ∧
      c ctx req rpc H = ((none, some e), preSeg rpc 1 (a + 1) ++ postSeg rpc 1 a) := by
  obtain ⟨c, hc⟩ := chainUnaryInterceptors_ex (scList (a + 1 + b) (a + 1) e)
    (by intro hh; have := congrArg List.length hh; simp [scList] at this)
  refine ⟨c, hc, ?_⟩
  rw [chainUnaryInterceptors_apply _ _ hc]
  exact getChained_scList_trace (a + 1 + b) (a + 1) e rpc (by omega) a 0 (by omega) ctx req H

/-- C6: composing the empty interceptor list yields `none` (the absent
composition), so invocation falls back to the terminal function directly,
and composing exactly one interceptor yields that interceptor itself,
unwrapped — for the unary and stream flavors on both server and client.
The last two conjuncts exhibit the fallback behaviorally: a client
connection with empty lists invokes the underlying connection directly,
and a mux whose chains were composed from empty lists dispatches straight
to the receiver with no interceptor event. -/
theorem c6_chain_empty_and_singleton :
    (chainUnaryInterceptors [] = none)
  ∧ (∀ i, chainUnaryInterceptors [i] = some i)
  ∧ (chainStreamInterceptors [] = none)
  ∧ (∀ i, chainStreamInterceptors [i] = some i)
  ∧ (∀ conn sl, (chainUnaryClientInterceptors (mkCC conn [] sl)).dopts.unaryInt = none)
  ∧ (∀ conn sl i, (chainUnaryClientInterceptors (mkCC conn [i] sl)).dopts.unaryInt = some i)
  ∧ (∀ conn ul, (chainStreamClientInterceptors (mkCC conn ul [])).dopts.streamInt = none)
  ∧ (∀ conn ul i, (chainStreamClientInterceptors (mkCC conn ul [i])).dopts.streamInt = some i)
  ∧ (∀ conn sl ctx rpc enc i o,
      (chainUnaryClientInterceptors (mkCC conn [] sl)).Invoke ctx rpc enc i o
        = conn.invoke ctx rpc enc i o)
  ∧ (∀ conn ul ctx rpc enc,
      (chainStreamClientInterceptors (mkCC conn ul [])).NewStream ctx rpc enc
        = conn.newStream ctx rpc enc)
  ∧ (∀ sid ctxv rv enc srv rpc,
      Mux.HandleRPC
          (mkMux (mkData true (InType.msgType true) enc srv (constReceiver (none, none)))
            (chainUnaryInterceptors []) (chainStreamInterceptors []))
          (mkStream sid ctxv rv) rpc
        = (HandleResult.ok none,
           [Event.recv sid, Event.receiverRun (ArgDesc.msgArg rv) sid, Event.closeSend sid])) :=
  ⟨rfl, fun _ => rfl, rfl, fun _ => rfl, fun _ _ => rfl, fun _ _ _ => rfl,
   fun _ _ => rfl, fun _ _ _ => rfl, fun _ _ _ _ _ _ _ => rfl, fun _ _ _ _ _ => rfl,
   fun _ _ _ _ _ _ => rfl⟩

/-- C7: for a registered fully-unary method with a unary chain configured,
a receive/decode failure makes `HandleRPC` return an error immediately:
the (arbitrary) composed unary interceptor and the (arbitrary) receiver
never run, and the trace holds only the failed receive — nothing is sent
and close-send is not called. -/
theorem c7_unary_decode_failure (ui : UnaryServerInterceptor) (r : Receiver)
    (e : GoErr) (sid ctxv : Nat) (enc : Enc) (srv : Srv) (rpc : String) :
    Mux.HandleRPC (mkMux (mkData true (InType.msgType true) enc srv r) (some ui) none)
        (mkStreamRecvErr sid ctxv e) rpc
      = (HandleResult.ok (some (GoErr.wrapped (GoErr.wrapped e))), [Event.recv sid]) :=
  rfl

/-- C8: for a unary-input/stream-output method dispatched through the
stream chain, the input message is received inside the interceptor-wrapped
scope, off the stream value the innermost interceptor passed down: with an
interceptor that replaces the original stream (id `sid`) by `s2` (id
`sid2`), the receive event carries `sid2`, happens after the
interceptor's pre-logic and before the receiver, and the receiver gets
`s2`'s message and `s2` itself; final disposal still uses the original
stream. -/
theorem c8_stream_chain_decode_inside_scope (sid ctxv sid2 ctx2 : Nat)
    (rv rv2 : GoValue) (enc : Enc) (srv : Srv) (rpc : String) :
    Mux.HandleRPC
        (mkMux (mkData false (InType.msgType true) enc srv (constReceiver (none, none)))
          none (some (replacingStream (mkStream sid2 ctx2 rv2))))
        (mkStream sid ctxv rv) rpc
      = (HandleResult.ok none,
         [Event.pre 1 rpc, Event.recv sid2, Event.receiverRun (ArgDesc.msgArg rv2) sid2,
          Event.post 1 rpc, Event.closeSend sid]) :=
  rfl

/-- C9: `ClientConn.Invoke` calls the effective unary interceptor with
`finalInvoker` as terminal when one is configured and the underlying
connection's invoke directly when not; `finalInvoker` delegates to the
underlying invoke; `NewStream` is symmetric with the effective stream
interceptor and `finalStreamer`. -/
theorem c9_clientconn_dispatch (conn : Conn) (ui : UnaryClientInterceptor)
    (si : StreamClientInterceptor) (ul : List UnaryClientInterceptor)
    (sl : List StreamClientInterceptor) (ctx : Ctx) (rpc : String) (enc : Enc)
    (i o : GoValue) :
    (ClientConn.Invoke
        { Conn := conn,
          dopts := { unaryInt := some ui, streamInt := some si,
                     unaryInts := ul, streamInts := sl } } ctx rpc enc i o
      = ui ctx rpc enc i o conn finalInvoker)
  ∧ (ClientConn.Invoke
        { Conn := conn,
          dopts := { unaryInt := none, streamInt := some si,
                     unaryInts := ul, streamInts := sl } } ctx rpc enc i o
      = conn.invoke ctx rpc enc i o)
  ∧ (finalInvoker ctx rpc enc i o conn = conn.invoke ctx rpc enc i o)
  ∧ (ClientConn.NewStream
        { Conn := conn,
          dopts := { unaryInt := some ui, streamInt := some si,
                     unaryInts := ul, streamInts := sl } } ctx rpc enc
      = si ctx rpc enc conn finalStreamer)
  ∧ (ClientConn.NewStream
        { Conn := conn,
          dopts := { unaryInt := some ui, streamInt := none,
                     unaryInts := ul, streamInts := sl } } ctx rpc enc
      = conn.newStream ctx rpc enc)
  ∧ (finalStreamer ctx rpc enc conn = conn.newStream ctx rpc enc) :=
  ⟨rfl, rfl, rfl, rfl, rfl, rfl⟩

/-- C10: the result-presence check of `HandleRPC` is total only on nilable
dynamic types.  `reflectIsNil` is defined on pointer-kind values and a
panic on struct-kind values; a receiver returning a non-nil message of
struct kind makes `HandleRPC` panic instead of returning, while under the
precondition that results are pointer-typed (or absent) `HandleRPC`
always returns normally. -/
theorem c10_reflect_isnil_partiality (sid ctxv : Nat) (rv : GoValue) (enc : Enc)
    (srv : Srv) (rpc : String) (p : String) :
    (∀ b, reflectIsNil (GoValue.ptr b p) = Except.ok b)
  ∧ (reflectIsNil (GoValue.structVal p)
      = Except.error "reflect: call of reflect.Value.IsNil on struct Value")
  ∧ (Mux.HandleRPC (mkMux (mkData false InType.streamType enc srv
        (constReceiver (some (GoValue.structVal p), none))) none none)
        (mkStream sid ctxv rv) rpc
      = (HandleResult.panicked "reflect: call of reflect.Value.IsNil on struct Value",
         [Event.receiverRun (ArgDesc.streamArg sid) sid]))
  ∧ (∀ b, (Mux.HandleRPC (mkMux (mkData false InType.streamType enc srv
        (constReceiver (some (GoValue.ptr b p), none))) none none)
        (mkStream sid ctxv rv) rpc).1 = HandleResult.ok none)
  ∧ ((Mux.HandleRPC (mkMux (mkData false InType.streamType enc srv
        (constReceiver (none, none))) none none)
        (mkStream sid ctxv rv) rpc).1 = HandleResult.ok none) := by
  refine ⟨fun b => rfl, rfl, rfl, fun b => ?_, rfl⟩
  cases b <;> rfl

end Drpc
